import Mathlib

/-!
# Verification of the nyquest NSURLSession data-task delegate and curl escape helper

Shallow embedding of:
* `src/backends/nsurlsession/src/datatask/delegate.rs` — the callback-to-poll
  bridge: delegate callbacks mutating shared transfer state, and the consumer
  side accessors `try_take_response`, `take_response_buffer`, `is_completed`.
* `src/backends/curl/src/urlencoded.rs` — `curl_escape`, which percent-escapes
  a byte string via libcurl and then rewrites every `%20` to `+`.

Bytes are modelled as `Nat` (the source works on `u8` slices; no arithmetic on
byte values occurs anywhere, only comparisons, so no modular reduction is
needed). Buffers are `List Nat`.
-/

namespace Nyquest

/-- The error values that can sit in the `received_error` slot.
`responseTooLarge` is `nyquest_interface::Error::ResponseTooLarge`;
`ns e` stands for a wrapped platform `NSError` (its identity abstracted to a
numeral, since the delegate only stores and forwards it). -/
inductive Err where
  | responseTooLarge : Err
  | ns : Nat → Err
  deriving DecidableEq, Repr

/-- Response metadata stored in the `response` slot. The source stores an
`NSURLResponse` and later attempts a downcast to `NSHTTPURLResponse`;
we model the two possible dynamic types, carrying an abstract payload. -/
inductive RespMeta where
  | http : Nat → RespMeta
  | nonHttp : Nat → RespMeta
  deriving DecidableEq, Repr

/-- `res.0.downcast::<NSHTTPURLResponse>().ok()` — succeeds exactly on the
HTTP dynamic type. -/
def downcast_http : RespMeta → Option Nat
  | RespMeta.http r => some r
  | RespMeta.nonHttp _ => none

/-- Externally visible operations a callback performs, in program order:
outbound calls to the task (`suspend`, `resume`, `cancel`), invoking the
disposition completion handler with `.Allow`, storing into the response slot,
and waking the consumer. -/
inductive Action where
  | suspend : Action
  | resume : Action
  | cancel : Action
  | completionAllow : Action
  | storeResponse : Action
  | wake : Action
  deriving DecidableEq, Repr

/-- `DataTaskIvarsShared`: the shared transfer state reachable from both the
delegate callbacks and the consumer handle.
* `response` — the `ArcSwapAny` slot holding the latest response metadata;
* `completed` — the `AtomicBool` completion flag;
* `received_error` — the mutex-protected captured-error slot;
* `response_buffer` — the mutex-protected accumulated body bytes. -/
structure DelegateState where
  response : Option RespMeta
  completed : Bool
  received_error : Option Err
  response_buffer : List Nat
  deriving DecidableEq, Repr

/-- The freshly constructed state (`DataTaskDelegate::new`): empty response
slot, not completed, no error, empty buffer. -/
def initState : DelegateState :=
  { response := none, completed := false, received_error := none, response_buffer := [] }

/-- Modelled from the spec: `DataTaskIvars::set_error` is defined in
`datatask/ivars.rs`, which is not among the sources; only its call sites are.
The spec specifies first-write-wins capture: "set `captured_error`
(first-write-wins ... do not overwrite an existing captured error)". -/
def set_error (e : Err) (s : DelegateState) : DelegateState :=
  match s.received_error with
  | some _ => s
  | none => { s with received_error := some e }

/-- `callback_URLSession_dataTask_didReceiveResponse_completionHandler`:
suspends the task, calls the completion handler with the `Allow` disposition,
stores a copy of the response into the `response` slot, then wakes the
consumer. Returns the new state and the ordered list of performed actions. -/
def callback_URLSession_dataTask_didReceiveResponse_completionHandler
    (s : DelegateState) (resp : RespMeta) : DelegateState × List Action :=
  ({ s with response := some resp },
   [Action.suspend, Action.completionAllow, Action.storeResponse, Action.wake])

/-- `callback_URLSession_task_didCompleteWithError`: sets `completed`, captures
the error (when present) through `set_error`, then wakes the consumer. -/
def callback_URLSession_task_didCompleteWithError
    (s : DelegateState) (error : Option Err) : DelegateState × List Action :=
  let s1 := { s with completed := true }
  let s2 := match error with
    | some e => set_error e s1
    | none => s1
  (s2, [Action.wake])

/-- `callback_URLSession_dataTask_didReceiveData`: locks the buffer; when a
`max_response_buffer_size` is configured and the buffered length plus the
chunk length would exceed it, drops the lock, captures `ResponseTooLarge` and
cancels the task without appending; otherwise appends the chunk. -/
def callback_URLSession_dataTask_didReceiveData
    (max_response_buffer_size : Option Nat) (s : DelegateState) (data : List Nat) :
    DelegateState × List Action :=
  match max_response_buffer_size with
  | some m =>
    if s.response_buffer.length + data.length > m then
      (set_error Err.responseTooLarge s, [Action.cancel])
    else
      ({ s with response_buffer := s.response_buffer ++ data }, [])
  | none => ({ s with response_buffer := s.response_buffer ++ data }, [])

/-- `DataTaskSharedContextRetained::try_take_response`: if an error is
captured, take it (clearing the slot) and return it; otherwise swap the
response slot with `None` and return the downcast of the previous value. -/
def try_take_response (s : DelegateState) : Except Err (Option Nat) × DelegateState :=
  match s.received_error with
  | some e => (Except.error e, { s with received_error := none })
  | none =>
    (Except.ok (s.response.bind downcast_http), { s with response := none })

/-- `DataTaskSharedContextRetained::is_completed`. -/
def is_completed (s : DelegateState) : Bool := s.completed

/-- `DataTaskSharedContextRetained::take_response_buffer`: if an error is
captured, take it and return it; otherwise return the buffer contents,
leaving an empty buffer behind (`std::mem::take`). -/
def take_response_buffer (s : DelegateState) : Except Err (List Nat) × DelegateState :=
  match s.received_error with
  | some e => (Except.error e, { s with received_error := none })
  | none => (Except.ok s.response_buffer, { s with response_buffer := [] })

/-- A delegate event as delivered by the native stack for one transfer. -/
inductive Event where
  | headers : RespMeta → Event
  | data : List Nat → Event
  | complete : Option Err → Event
  deriving DecidableEq, Repr

/-- State component of one delegate callback invocation. -/
def stepState (max_response_buffer_size : Option Nat) (s : DelegateState) :
    Event → DelegateState
  | Event.headers r =>
    (callback_URLSession_dataTask_didReceiveResponse_completionHandler s r).1
  | Event.data d =>
    (callback_URLSession_dataTask_didReceiveData max_response_buffer_size s d).1
  | Event.complete e => (callback_URLSession_task_didCompleteWithError s e).1

/-- Shared state after a sequence of delegate events. -/
def runEvents (max_response_buffer_size : Option Nat) (s : DelegateState)
    (evs : List Event) : DelegateState :=
  evs.foldl (stepState max_response_buffer_size) s

theorem set_error_response_buffer (e : Err) (s : DelegateState) :
    (set_error e s).response_buffer = s.response_buffer := by
  unfold set_error; split <;> rfl

theorem set_error_of_none (e : Err) (s : DelegateState) (h : s.received_error = none) :
    (set_error e s).received_error = some e := by
  unfold set_error; split <;> simp_all

theorem set_error_of_some (e e0 : Err) (s : DelegateState)
    (h : s.received_error = some e0) : set_error e s = s := by
  unfold set_error; split <;> simp_all

theorem stepState_buffer_bound (m : Nat) (s : DelegateState) (ev : Event)
    (h : s.response_buffer.length ≤ m) :
    (stepState (some m) s ev).response_buffer.length ≤ m := by
  cases ev with
  | headers r =>
    simpa [stepState, callback_URLSession_dataTask_didReceiveResponse_completionHandler]
      using h
  | data d =>
    simp only [stepState, callback_URLSession_dataTask_didReceiveData]
    split
    · simpa [set_error_response_buffer] using h
    · simp only [List.length_append]; omega
  | complete e =>
    cases e <;>
      simp [stepState, callback_URLSession_task_didCompleteWithError,
        set_error_response_buffer, h]

theorem runEvents_buffer_bound (m : Nat) (evs : List Event) (s : DelegateState)
    (h : s.response_buffer.length ≤ m) :
    (runEvents (some m) s evs).response_buffer.length ≤ m := by
  induction evs generalizing s with
  | nil => simpa [runEvents] using h
  | cons ev evs ih =>
    simp only [runEvents, List.foldl_cons] at *
    exact ih _ (stepState_buffer_bound m s ev h)

/-- C1: with `max_response_buffer_size` set to `m`, the body buffer never
exceeds `m` after any event sequence; and on a `didReceiveData` call whose
chunk would push the buffer past `m`, the buffer is left exactly as it was
(the chunk is dropped whole, the check happening before any mutation), a
cancellation of the task is requested, and — when no error was captured
before — `ResponseTooLarge` is captured. -/
theorem didReceiveData_respects_max (m : Nat) :
    (∀ evs : List Event,
      (runEvents (some m) initState evs).response_buffer.length ≤ m) ∧
    (∀ (s : DelegateState) (data : List Nat),
      s.response_buffer.length + data.length > m →
        (callback_URLSession_dataTask_didReceiveData (some m) s data).1.response_buffer
            = s.response_buffer ∧
          Action.cancel ∈ (callback_URLSession_dataTask_didReceiveData (some m) s data).2 ∧
          (s.received_error = none →
            (callback_URLSession_dataTask_didReceiveData (some m) s data).1.received_error
              = some Err.responseTooLarge)) := by
  constructor
  · intro evs
    exact runEvents_buffer_bound m evs initState (by simp [initState])
  · intro s data h
    simp only [callback_URLSession_dataTask_didReceiveData, if_pos h]
    refine ⟨set_error_response_buffer _ s, by simp, fun he => set_error_of_none _ s he⟩

/-- C1 witness: concrete instance at `m = 2`, one oversized event, and an
oversized chunk on a buffer holding two bytes. -/
theorem didReceiveData_respects_max_witness :
    ((runEvents (some 2) initState [Event.data [9, 9, 9]]).response_buffer.length ≤ 2) ∧
    ((callback_URLSession_dataTask_didReceiveData (some 2)
          ⟨none, false, none, [1, 2]⟩ [3]).1.response_buffer = [1, 2] ∧
      Action.cancel ∈ (callback_URLSession_dataTask_didReceiveData (some 2)
          ⟨none, false, none, [1, 2]⟩ [3]).2 ∧
      ((⟨none, false, none, [1, 2]⟩ : DelegateState).received_error = none →
        (callback_URLSession_dataTask_didReceiveData (some 2)
            ⟨none, false, none, [1, 2]⟩ [3]).1.received_error
          = some Err.responseTooLarge)) :=
  ⟨(didReceiveData_respects_max 2).1 [Event.data [9, 9, 9]],
   (didReceiveData_respects_max 2).2 ⟨none, false, none, [1, 2]⟩ [3] (by decide)⟩

theorem runEvents_append (mx : Option Nat) (s : DelegateState) (l1 l2 : List Event) :
    runEvents mx s (l1 ++ l2) = runEvents mx (runEvents mx s l1) l2 := by
  simp [runEvents, List.foldl_append]

theorem runEvents_data_chunks (m : Nat) (chunks : List (List Nat)) (s : DelegateState)
    (herr : s.received_error = none)
    (h : s.response_buffer.length + chunks.flatten.length ≤ m) :
    runEvents (some m) s (chunks.map Event.data)
      = { s with response_buffer := s.response_buffer ++ chunks.flatten } := by
  induction chunks generalizing s with
  | nil =>
    simp only [List.map_nil, runEvents, List.foldl_nil, List.flatten_nil, List.append_nil]
  | cons c cs ih =>
    simp only [List.flatten_cons, List.length_append] at h
    have hfit : ¬ s.response_buffer.length + c.length > m := by omega
    simp only [List.map_cons, runEvents, List.foldl_cons]
    have hstep : stepState (some m) s (Event.data c)
        = { s with response_buffer := s.response_buffer ++ c } := by
      simp [stepState, callback_URLSession_dataTask_didReceiveData, hfit]
    rw [hstep]
    have := ih { s with response_buffer := s.response_buffer ++ c } (by simpa using herr)
      (by simp only [List.length_append]; omega)
    simpa [runEvents, List.append_assoc] using this

/-- C2: for any chunk sequence whose total size stays within the configured
bound, after delivering the chunks and an error-free completion event, no
error is captured, the transfer is completed, and `take_response_buffer`
returns exactly the concatenation of the chunks in arrival order. -/
theorem take_response_buffer_returns_concatenation (m : Nat) (chunks : List (List Nat))
    (h : chunks.flatten.length ≤ m) :
    (runEvents (some m) initState
        (chunks.map Event.data ++ [Event.complete none])).received_error = none ∧
    is_completed (runEvents (some m) initState
        (chunks.map Event.data ++ [Event.complete none])) = true ∧
    (take_response_buffer (runEvents (some m) initState
        (chunks.map Event.data ++ [Event.complete none]))).1
      = Except.ok chunks.flatten := by
  rw [runEvents_append]
  rw [runEvents_data_chunks m chunks initState rfl (by simpa [initState] using h)]
  simp [runEvents, stepState, callback_URLSession_task_didCompleteWithError,
    initState, is_completed, take_response_buffer]

/-- C2 witness: three chunks of total size 4 under a bound of 10. -/
theorem take_response_buffer_returns_concatenation_witness :
    ((4 : Nat) ≤ 10 ∧ True) ∧
    ((runEvents (some 10) initState
        ([[1], [2, 3], [4]].map Event.data ++ [Event.complete none])).received_error = none ∧
    is_completed (runEvents (some 10) initState
        ([[1], [2, 3], [4]].map Event.data ++ [Event.complete none])) = true ∧
    (take_response_buffer (runEvents (some 10) initState
        ([[1], [2, 3], [4]].map Event.data ++ [Event.complete none]))).1
      = Except.ok [1, 2, 3, 4]) := by
  refine ⟨⟨by decide, trivial⟩, ?_⟩
  have := take_response_buffer_returns_concatenation 10 [[1], [2, 3], [4]] (by decide)
  simpa using this

/-- C3: a read performed while `captured_error` is set propagates the error
rather than returning data as success: both `try_take_response` and
`take_response_buffer` return the captured error; the bytes accepted into the
buffer before the error are left in place by the failing read and remain
returnable by the following `take_response_buffer` call. -/
theorem reads_after_error_propagate (s : DelegateState) (e : Err)
    (h : s.received_error = some e) :
    (try_take_response s).1 = Except.error e ∧
    (take_response_buffer s).1 = Except.error e ∧
    (take_response_buffer s).2.response_buffer = s.response_buffer ∧
    (take_response_buffer (take_response_buffer s).2).1 = Except.ok s.response_buffer := by
  simp [try_take_response, take_response_buffer, h]

/-- C3 witness: error set with two bytes already buffered. -/
theorem reads_after_error_propagate_witness :
    (try_take_response ⟨none, true, some Err.responseTooLarge, [5, 6]⟩).1
        = Except.error Err.responseTooLarge ∧
    (take_response_buffer ⟨none, true, some Err.responseTooLarge, [5, 6]⟩).1
        = Except.error Err.responseTooLarge ∧
    (take_response_buffer
        ⟨none, true, some Err.responseTooLarge, [5, 6]⟩).2.response_buffer = [5, 6] ∧
    (take_response_buffer (take_response_buffer
        ⟨none, true, some Err.responseTooLarge, [5, 6]⟩).2).1 = Except.ok [5, 6] :=
  reads_after_error_propagate ⟨none, true, some Err.responseTooLarge, [5, 6]⟩
    Err.responseTooLarge rfl

/-- C4: take semantics for a captured error: the first poll returns the error
and clears the slot, and subsequent polls (with no new error captured) return
normal `Ok` results — `try_take_response` an `Ok` value and
`take_response_buffer` the remaining buffer contents. -/
theorem error_surfaced_at_most_once (s : DelegateState) (e : Err)
    (h : s.received_error = some e) :
    (try_take_response s).1 = Except.error e ∧
    (try_take_response s).2.received_error = none ∧
    (∃ v, (try_take_response (try_take_response s).2).1 = Except.ok v) ∧
    (take_response_buffer (try_take_response s).2).1 = Except.ok s.response_buffer := by
  simp [try_take_response, take_response_buffer, h]

/-- C4 witness: a state with a captured transport error. -/
theorem error_surfaced_at_most_once_witness :
    (try_take_response ⟨none, true, some (Err.ns 7), [1]⟩).1 = Except.error (Err.ns 7) ∧
    (try_take_response ⟨none, true, some (Err.ns 7), [1]⟩).2.received_error = none ∧
    (∃ v, (try_take_response
        (try_take_response ⟨none, true, some (Err.ns 7), [1]⟩).2).1 = Except.ok v) ∧
    (take_response_buffer
        (try_take_response ⟨none, true, some (Err.ns 7), [1]⟩).2).1 = Except.ok [1] :=
  error_surfaced_at_most_once ⟨none, true, some (Err.ns 7), [1]⟩ (Err.ns 7) rfl

/-- C5: when an error is already captured and the completion callback arrives
with its own non-null error, the handler sets `completed` but leaves the
previously captured error in place (first-write-wins). -/
theorem didCompleteWithError_keeps_first_error (s : DelegateState) (e0 e : Err)
    (h : s.received_error = some e0) :
    (callback_URLSession_task_didCompleteWithError s (some e)).1.completed = true ∧
    (callback_URLSession_task_didCompleteWithError s (some e)).1.received_error = some e0 := by
  have h1 : ({ s with completed := true } : DelegateState).received_error = some e0 := h
  simp only [callback_URLSession_task_didCompleteWithError, set_error_of_some e e0 _ h1]
  exact ⟨trivial, h1⟩

/-- C5 witness: `ResponseTooLarge` already captured, completion delivers a
transport error; the earlier capture survives. -/
theorem didCompleteWithError_keeps_first_error_witness :
    (callback_URLSession_task_didCompleteWithError
        ⟨none, false, some Err.responseTooLarge, [9]⟩ (some (Err.ns 3))).1.completed = true ∧
    (callback_URLSession_task_didCompleteWithError
        ⟨none, false, some Err.responseTooLarge, [9]⟩ (some (Err.ns 3))).1.received_error
      = some Err.responseTooLarge :=
  didCompleteWithError_keeps_first_error ⟨none, false, some Err.responseTooLarge, [9]⟩
    Err.responseTooLarge (Err.ns 3) rfl

/-- C6 counterexample: `max = 15`; after two 10-byte chunks the error
`ResponseTooLarge` is captured and the buffer holds 10 bytes — yet a later
3-byte chunk is still appended (the call is not a no-op and the handler has
no entry guard), and a later 10-byte chunk triggers a second, redundant
cancellation request. -/
theorem didReceiveData_entry_guard_counterexample :
    (runEvents (some 15) initState
        [Event.data (List.replicate 10 1), Event.data (List.replicate 10 1)]).received_error
      = some Err.responseTooLarge ∧
    (callback_URLSession_dataTask_didReceiveData (some 15)
        (runEvents (some 15) initState
          [Event.data (List.replicate 10 1), Event.data (List.replicate 10 1)])
        (List.replicate 3 1)).1.response_buffer
      ≠ (runEvents (some 15) initState
          [Event.data (List.replicate 10 1),
            Event.data (List.replicate 10 1)]).response_buffer ∧
    Action.cancel ∈ (callback_URLSession_dataTask_didReceiveData (some 15)
        (runEvents (some 15) initState
          [Event.data (List.replicate 10 1), Event.data (List.replicate 10 1)])
        (List.replicate 10 1)).2 := by decide

/-- C6 amended: once `captured_error` is set, a further `didReceiveData` call
behaves exactly as it would without the error (there is no entry guard): the
captured error is never overwritten, a chunk that still fits is appended to
the buffer, and an over-bound chunk leaves the buffer unchanged but issues
another cancellation request. -/
theorem didReceiveData_after_error (m : Nat) (s : DelegateState) (e : Err)
    (data : List Nat) (h : s.received_error = some e) :
    (callback_URLSession_dataTask_didReceiveData (some m) s data).1.received_error
        = some e ∧
    (if s.response_buffer.length + data.length > m then
        (callback_URLSession_dataTask_didReceiveData (some m) s data).1.response_buffer
            = s.response_buffer ∧
          (callback_URLSession_dataTask_didReceiveData (some m) s data).2 = [Action.cancel]
      else
        (callback_URLSession_dataTask_didReceiveData (some m) s data).1.response_buffer
            = s.response_buffer ++ data ∧
          (callback_URLSession_dataTask_didReceiveData (some m) s data).2 = []) := by
  simp only [callback_URLSession_dataTask_didReceiveData]
  by_cases hc : s.response_buffer.length + data.length > m
  · rw [if_pos hc, if_pos hc, set_error_of_some _ e _ h]
    exact ⟨h, rfl, rfl⟩
  · rw [if_neg hc, if_neg hc]
    exact ⟨h, rfl, rfl⟩

/-- C6 amended witness: error already captured, buffer `[1, 2]`, bound 10, a
fitting 1-byte chunk is still appended. -/
theorem didReceiveData_after_error_witness :
    (callback_URLSession_dataTask_didReceiveData (some 10)
        ⟨none, false, some Err.responseTooLarge, [1, 2]⟩ [3]).1.received_error
        = some Err.responseTooLarge ∧
    (if ([1, 2] : List Nat).length + ([3] : List Nat).length > 10 then
        (callback_URLSession_dataTask_didReceiveData (some 10)
            ⟨none, false, some Err.responseTooLarge, [1, 2]⟩ [3]).1.response_buffer
            = [1, 2] ∧
          (callback_URLSession_dataTask_didReceiveData (some 10)
            ⟨none, false, some Err.responseTooLarge, [1, 2]⟩ [3]).2 = [Action.cancel]
      else
        (callback_URLSession_dataTask_didReceiveData (some 10)
            ⟨none, false, some Err.responseTooLarge, [1, 2]⟩ [3]).1.response_buffer
            = [1, 2] ++ [3] ∧
          (callback_URLSession_dataTask_didReceiveData (some 10)
            ⟨none, false, some Err.responseTooLarge, [1, 2]⟩ [3]).2 = []) :=
  didReceiveData_after_error 10 ⟨none, false, some Err.responseTooLarge, [1, 2]⟩
    Err.responseTooLarge [3] rfl

/-- C7: drain-once semantics of `try_take_response`: with no captured error
and HTTP metadata stored, the first call returns the metadata and the second
call (no new headers event in between) returns `Ok none`, not an error. -/
theorem try_take_response_drain_once (s : DelegateState) (r : Nat)
    (h1 : s.received_error = none) (h2 : s.response = some (RespMeta.http r)) :
    (try_take_response s).1 = Except.ok (some r) ∧
    (try_take_response (try_take_response s).2).1 = Except.ok none := by
  simp [try_take_response, h1, h2, downcast_http]

/-- C7 witness: stored HTTP metadata `200`, no error. -/
theorem try_take_response_drain_once_witness :
    (try_take_response ⟨some (RespMeta.http 200), false, none, []⟩).1
        = Except.ok (some 200) ∧
    (try_take_response
        (try_take_response ⟨some (RespMeta.http 200), false, none, []⟩).2).1
      = Except.ok none :=
  try_take_response_drain_once ⟨some (RespMeta.http 200), false, none, []⟩ 200 rfl rfl

/-- C8 counterexample: the headers handler never issues a `resume` on the
task — instead it issues a `suspend` — contradicting the claim that the task
is resumed immediately after storing the metadata. -/
theorem didReceiveResponse_no_resume_counterexample :
    Action.resume ∉
      (callback_URLSession_dataTask_didReceiveResponse_completionHandler initState
        (RespMeta.http 200)).2 ∧
    Action.suspend ∈
      (callback_URLSession_dataTask_didReceiveResponse_completionHandler initState
        (RespMeta.http 200)).2 := by decide

/-- C8 amended: the headers handler suspends the task, invokes the disposition
completion handler with `Allow`, stores the metadata into the response slot
(leaving the other fields untouched) and then wakes the consumer; it performs
no `resume` — the task is left suspended pending a later explicit resume. -/
theorem didReceiveResponse_stores_then_wakes (s : DelegateState) (resp : RespMeta) :
    (callback_URLSession_dataTask_didReceiveResponse_completionHandler s resp).1.response
        = some resp ∧
    (callback_URLSession_dataTask_didReceiveResponse_completionHandler
        s resp).1.response_buffer = s.response_buffer ∧
    (callback_URLSession_dataTask_didReceiveResponse_completionHandler
        s resp).1.received_error = s.received_error ∧
    (callback_URLSession_dataTask_didReceiveResponse_completionHandler
        s resp).1.completed = s.completed ∧
    (callback_URLSession_dataTask_didReceiveResponse_completionHandler s resp).2
        = [Action.suspend, Action.completionAllow, Action.storeResponse, Action.wake] ∧
    Action.resume ∉
      (callback_URLSession_dataTask_didReceiveResponse_completionHandler s resp).2 := by
  refine ⟨rfl, rfl, rfl, rfl, rfl, ?_⟩
  simp [callback_URLSession_dataTask_didReceiveResponse_completionHandler]

/-- C10: with no captured error and non-HTTP metadata stored, the downcast
fails and `try_take_response` returns `Ok none`, consuming the slot; a later
call also returns `Ok none`. -/
theorem try_take_response_non_http_discarded (s : DelegateState) (r : Nat)
    (h1 : s.received_error = none) (h2 : s.response = some (RespMeta.nonHttp r)) :
    (try_take_response s).1 = Except.ok none ∧
    (try_take_response s).2.response = none ∧
    (try_take_response (try_take_response s).2).1 = Except.ok none := by
  simp [try_take_response, h1, h2, downcast_http]

/-- C10 witness: stored non-HTTP metadata, no error. -/
theorem try_take_response_non_http_discarded_witness :
    (try_take_response ⟨some (RespMeta.nonHttp 1), false, none, []⟩).1 = Except.ok none ∧
    (try_take_response ⟨some (RespMeta.nonHttp 1), false, none, []⟩).2.response = none ∧
    (try_take_response
        (try_take_response ⟨some (RespMeta.nonHttp 1), false, none, []⟩).2).1
      = Except.ok none :=
  try_take_response_non_http_discarded ⟨some (RespMeta.nonHttp 1), false, none, []⟩ 1 rfl rfl

/-!
## The curl backend's `curl_escape` (`src/backends/curl/src/urlencoded.rs`)

`curl_escape` returns `vec![]` on empty input; otherwise it percent-escapes the
input through libcurl's `curl_easy_escape` and then runs a loop replacing each
occurrence of the needle `b"%20"` (bytes `37, 50, 48`) with the single byte
`b'+'` (byte `43`), resuming the search one position past each replacement.
-/

/-- The needle check: whether the next three bytes are `b"%20"`
(`37, 50, 48`). -/
def patHere : List Nat → Bool
  | a :: b :: c :: _ => a == 37 && b == 50 && c == 48
  | _ => false

/-- `memmem::find(haystack, b"%20")`: index of the first occurrence of the
three-byte needle, if any. -/
def findPat : List Nat → Option Nat
  | [] => none
  | b :: rest => if patHere (b :: rest) then some 0 else (findPat rest).map (· + 1)

/-- The needle `b"%20"` occurs in `l` starting at index `i`. -/
def occursAt (l : List Nat) (i : Nat) : Prop :=
  ∃ t, l.drop i = 37 :: 50 :: 48 :: t

theorem patHere_iff (l : List Nat) :
    patHere l = true ↔ ∃ t, l = 37 :: 50 :: 48 :: t := by
  match l with
  | [] => simp [patHere]
  | [a] => simp [patHere]
  | [a, b] => simp [patHere]
  | a :: b :: c :: t =>
    simp only [patHere, Bool.and_eq_true, beq_iff_eq]
    constructor
    · rintro ⟨⟨rfl, rfl⟩, rfl⟩; exact ⟨t, rfl⟩
    · rintro ⟨t', ht⟩; cases ht; exact ⟨⟨rfl, rfl⟩, rfl⟩

theorem findPat_none (l : List Nat) (h : findPat l = none) : ∀ i, ¬ occursAt l i := by
  induction l with
  | nil => rintro i ⟨t, ht⟩; simp at ht
  | cons b rest ih =>
    rw [findPat] at h
    split at h
    · exact absurd h (by simp)
    · next hph =>
      have hrest : findPat rest = none := by
        cases hfr : findPat rest <;> simp [hfr] at h ⊢
      rintro i ⟨t, ht⟩
      match i with
      | 0 =>
        simp only [List.drop_zero] at ht
        exact hph ((patHere_iff _).mpr ⟨t, ht⟩)
      | i + 1 =>
        exact ih hrest i ⟨t, by simpa using ht⟩

theorem findPat_some (l : List Nat) (p : Nat) (h : findPat l = some p) :
    occursAt l p ∧ p + 3 ≤ l.length ∧ ∀ i, i < p → ¬ occursAt l i := by
  induction l generalizing p with
  | nil => simp [findPat] at h
  | cons b rest ih =>
    rw [findPat] at h
    split at h
    · next hph =>
      cases h
      obtain ⟨t, ht⟩ := (patHere_iff _).mp hph
      refine ⟨⟨t, by simpa using ht⟩, ?_, by omega⟩
      rw [ht]; simp
    · next hph =>
      cases hfr : findPat rest with
      | none => rw [hfr] at h; simp at h
      | some q =>
        rw [hfr] at h
        rw [Option.map_some'] at h
        cases h
        obtain ⟨⟨t, ht⟩, hlen, hmin⟩ := ih q hfr
        refine ⟨⟨t, by simpa using ht⟩, by simp only [List.length_cons]; omega, ?_⟩
        rintro i hi ⟨t', ht'⟩
        match i with
        | 0 =>
          simp only [List.drop_zero] at ht'
          exact hph ((patHere_iff _).mpr ⟨t', ht'⟩)
        | i + 1 =>
          exact hmin i (by omega) ⟨t', by simpa using ht'⟩

/-- Follows the spec's words: the byte string with every occurrence of the
three-byte substring `%20` replaced by a single `+` byte — the leftmost
occurrence is replaced and replacement continues after it. This is the
specification-side description `curl_escape`'s loop is compared against. -/
def replacePatAll (buf : List Nat) : List Nat :=
  match hf : findPat buf with
  | none => buf
  | some p => buf.take p ++ 43 :: replacePatAll (buf.drop (p + 3))
termination_by buf.length
decreasing_by
  have h3 := (findPat_some buf p hf).2.1
  rw [List.length_drop]
  omega

/-- The `while let Some(pos) = memmem::find(&buf[idx..], b"%20")` loop of
`curl_escape`: splice the three matched bytes into a single `43` and resume
the search at `idx + pos + 1`. -/
def replaceLoop (buf : List Nat) (idx : Nat) : List Nat :=
  match hf : findPat (buf.drop idx) with
  | none => buf
  | some pos =>
    replaceLoop (buf.take (idx + pos) ++ 43 :: buf.drop (idx + pos + 3)) (idx + pos + 1)
termination_by buf.length - idx
decreasing_by
  have h3 := (findPat_some _ pos hf).2.1
  rw [List.length_drop] at h3
  simp only [List.length_append, List.length_take, List.length_cons, List.length_drop]
  omega

theorem replacePatAll_none (buf : List Nat) (h : findPat buf = none) :
    replacePatAll buf = buf := by
  rw [replacePatAll.eq_def]
  split <;> simp_all

theorem replacePatAll_some (buf : List Nat) (p : Nat) (h : findPat buf = some p) :
    replacePatAll buf = buf.take p ++ 43 :: replacePatAll (buf.drop (p + 3)) := by
  rw [replacePatAll.eq_def]
  split
  · simp_all
  · next p' hf => rw [h] at hf; cases hf; rfl

theorem replaceLoop_none (buf : List Nat) (idx : Nat)
    (h : findPat (buf.drop idx) = none) : replaceLoop buf idx = buf := by
  rw [replaceLoop.eq_def]
  split <;> simp_all

theorem replaceLoop_some (buf : List Nat) (idx pos : Nat)
    (h : findPat (buf.drop idx) = some pos) :
    replaceLoop buf idx
      = replaceLoop (buf.take (idx + pos) ++ 43 :: buf.drop (idx + pos + 3))
          (idx + pos + 1) := by
  rw [replaceLoop.eq_def]
  split
  · simp_all
  · next p' hf => rw [h] at hf; cases hf; rfl

/-- The resume-after-the-replacement loop computes exactly the leftmost
replace-all: the splice keeps the already-scanned region intact and the
single `+` byte it writes can never take part in a later `%20` match. -/
theorem replaceLoop_eq_replacePatAll (buf : List Nat) (idx : Nat) :
    replaceLoop buf idx = buf.take idx ++ replacePatAll (buf.drop idx) := by
  cases hf : findPat (buf.drop idx) with
  | none =>
    rw [replaceLoop_none buf idx hf, replacePatAll_none _ hf, List.take_append_drop]
  | some pos =>
    have hk := (findPat_some _ pos hf).2.1
    rw [List.length_drop] at hk
    have hlen : idx + pos + 3 ≤ buf.length := by omega
    have hA : (buf.take (idx + pos)).length = idx + pos := by
      rw [List.length_take]; omega
    rw [replaceLoop_some buf idx pos hf]
    rw [replaceLoop_eq_replacePatAll
      (buf.take (idx + pos) ++ 43 :: buf.drop (idx + pos + 3)) (idx + pos + 1)]
    rw [replacePatAll_some _ pos hf]
    rw [show idx + pos + 1 = (buf.take (idx + pos)).length + 1 from by omega]
    rw [List.take_append, List.drop_append, List.drop_drop, List.take_add]
    simp [List.append_assoc, Nat.add_assoc]
termination_by buf.length - idx
decreasing_by
  have h3 := (findPat_some _ pos hf).2.1
  rw [List.length_drop] at h3
  simp only [List.length_append, List.length_take, List.length_cons, List.length_drop]
  omega

theorem occursAt_iff (l : List Nat) (i : Nat) :
    occursAt l i ↔
      i + 3 ≤ l.length ∧ l[i]? = some 37 ∧ l[i + 1]? = some 50 ∧ l[i + 2]? = some 48 := by
  constructor
  · rintro ⟨t, ht⟩
    have hlen := congrArg List.length ht
    simp only [List.length_drop, List.length_cons] at hlen
    have hil : i + 3 ≤ l.length := by
      rcases le_or_lt i l.length with hle | hlt
      · omega
      · rw [List.drop_eq_nil_of_le (Nat.le_of_lt hlt)] at ht; exact absurd ht (by simp)
    refine ⟨hil, ?_, ?_, ?_⟩
    · have h := List.getElem?_drop l i 0; rw [ht] at h
      simpa using h.symm
    · have h := List.getElem?_drop l i 1; rw [ht] at h
      simpa using h.symm
    · have h := List.getElem?_drop l i 2; rw [ht] at h
      simpa using h.symm
  · rintro ⟨hlen, h0, h1, h2⟩
    refine ⟨l.drop (i + 3), ?_⟩
    rw [List.drop_eq_getElem_cons (show i < l.length by omega)]
    rw [List.drop_eq_getElem_cons (show i + 1 < l.length by omega)]
    rw [List.drop_eq_getElem_cons (show i + 2 < l.length by omega)]
    have q0 := List.getElem?_eq_getElem (l := l) (n := i) (by omega)
    have q1 := List.getElem?_eq_getElem (l := l) (n := i + 1) (by omega)
    have q2 := List.getElem?_eq_getElem (l := l) (n := i + 2) (by omega)
    rw [h0] at q0
    rw [h1] at q1
    rw [h2] at q2
    injection q0 with q0
    injection q1 with q1
    injection q2 with q2
    rw [← q0, ← q1, ← q2]

/-- The output of the leftmost replace-all contains no occurrence of the
needle: the written `+` byte is not a byte of the needle, so no new
occurrence can straddle a replacement. -/
theorem replacePatAll_no_occurrence (buf : List Nat) (i : Nat) :
    ¬ occursAt (replacePatAll buf) i := by
  cases hf : findPat buf with
  | none => rw [replacePatAll_none buf hf]; exact findPat_none buf hf i
  | some p =>
    obtain ⟨hoc, hp3, hmin⟩ := findPat_some buf p hf
    rw [replacePatAll_some buf p hf]
    intro hocc
    have hA : (buf.take p).length = p := by rw [List.length_take]; omega
    rw [occursAt_iff] at hocc
    obtain ⟨hlen, h0, h1, h2⟩ := hocc
    rw [List.length_append, List.length_cons, hA] at hlen
    by_cases hcase1 : i + 3 ≤ p
    · refine hmin i (by omega) ?_
      rw [occursAt_iff]
      have tr : ∀ k, k < p → ((buf.take p ++ 43 :: replacePatAll (buf.drop (p + 3)))[k]?
          = buf[k]?) := by
        intro k hk
        rw [List.getElem?_append_left (by omega), List.getElem?_take, if_pos hk]
      refine ⟨by omega, ?_, ?_, ?_⟩
      · rw [← tr i (by omega)]; exact h0
      · rw [← tr (i + 1) (by omega)]; exact h1
      · rw [← tr (i + 2) (by omega)]; exact h2
    · by_cases hcase2 : p + 1 ≤ i
      · refine replacePatAll_no_occurrence (buf.drop (p + 3)) (i - p - 1) ?_
        rw [occursAt_iff]
        have tr : ∀ j, ((buf.take p ++ 43 :: replacePatAll (buf.drop (p + 3)))[p + 1 + j]?
              = (replacePatAll (buf.drop (p + 3)))[j]?) := by
          intro j
          rw [List.getElem?_append_right (by omega), hA]
          rw [show p + 1 + j - p = j + 1 from by omega]
          exact List.getElem?_cons_succ
        rw [show i = p + 1 + (i - p - 1) from by omega] at h0
        rw [show i + 1 = p + 1 + (i - p - 1 + 1) from by omega] at h1
        rw [show i + 2 = p + 1 + (i - p - 1 + 2) from by omega] at h2
        rw [tr] at h0 h1 h2
        exact ⟨by omega, h0, h1, h2⟩
      · have h43 : (buf.take p ++ 43 :: replacePatAll (buf.drop (p + 3)))[p]?
            = some 43 := by
          rw [List.getElem?_append_right (by omega), hA]
          simp
        have hp : p = i ∨ p = i + 1 ∨ p = i + 2 := by omega
        rcases hp with rfl | rfl | rfl
        · rw [h0] at h43; exact absurd h43 (by simp)
        · rw [h1] at h43; exact absurd h43 (by simp)
        · rw [h2] at h43; exact absurd h43 (by simp)
termination_by buf.length
decreasing_by
  rw [List.length_drop]
  omega

/-- RFC 3986 unreserved bytes: ASCII letters, digits, `-`, `.`, `_`, `~`. -/
def isUnreservedByte (b : Nat) : Bool :=
  (65 ≤ b && b ≤ 90) || (97 ≤ b && b ≤ 122) || (48 ≤ b && b ≤ 57) ||
    b == 45 || b == 46 || b == 95 || b == 126

/-- Uppercase hexadecimal digit of a value below 16, as an ASCII byte. -/
def hexUpper (n : Nat) : Nat := if n < 10 then 48 + n else 55 + n

/-- Modelled from the spec: `curl_sys::curl_easy_escape` is libcurl, external
to this repository; the spec describes the helper as percent-encoding.
libcurl's documented behavior: every byte that is not an RFC 3986 unreserved
character is encoded as `%XX` with uppercase hexadecimal digits; unreserved
bytes pass through unchanged. -/
def curl_easy_escape (s : List Nat) : List Nat :=
  s.flatMap fun b =>
    if isUnreservedByte b then [b] else [37, hexUpper (b / 16 % 16), hexUpper (b % 16)]

/-- `curl_escape` from `urlencoded.rs`: empty input short-circuits to an empty
vector; otherwise escape through libcurl and run the `%20` → `+` splice loop
starting at index 0. -/
def curl_escape (s : List Nat) : List Nat :=
  if s.isEmpty then [] else replaceLoop (curl_easy_escape s) 0

/-- C9: for every non-empty input, `curl_escape` returns the percent-escaped
form of the input with every occurrence of the three-byte substring `%20`
replaced by a single `+` byte (the leftmost replace-all of the needle over
`curl_easy_escape`'s output), and the returned byte sequence contains no
occurrence of `%20` at any position. -/
theorem curl_escape_replaces_every_pct20 (s : List Nat) (h : s ≠ []) :
    curl_escape s = replacePatAll (curl_easy_escape s) ∧
    ∀ i, ¬ occursAt (curl_escape s) i := by
  have hne : ¬ s.isEmpty = true := by simpa [List.isEmpty_iff] using h
  have heq : curl_escape s = replacePatAll (curl_easy_escape s) := by
    simp only [curl_escape, if_neg hne]
    rw [replaceLoop_eq_replacePatAll]
    simp
  exact ⟨heq, fun i => heq ▸ replacePatAll_no_occurrence (curl_easy_escape s) i⟩

/-- C9 witness: the input `"a b"` (bytes `97, 32, 98`). -/
theorem curl_escape_replaces_every_pct20_witness :
    (([97, 32, 98] : List Nat) ≠ []) ∧
    (curl_escape [97, 32, 98] = replacePatAll (curl_easy_escape [97, 32, 98]) ∧
      ∀ i, ¬ occursAt (curl_escape [97, 32, 98]) i) :=
  ⟨by decide, curl_escape_replaces_every_pct20 [97, 32, 98] (by decide)⟩

end Nyquest
